import Mathlib

/-!
Verification development for the zentao-api repository's core
session/request orchestration layer.

The definitions below are a shallow embedding, translated from the
TypeScript sources:
  * `src/utils.ts`        — parameter normalization / merge (`normalizeRequestParams`,
                            `mergeRequestParams`, `slimmingObject`),
  * `src/zentao-config.ts`— the `ZentaoConfig` class (server config + token state),
  * `src/zentao.ts`       — the `Zentao` orchestrator (`request`, `createUrl`,
                            `fetchConfig`, `login`),
  * Node's `querystring`  — `parse` / `stringify`, which `utils.ts` and
                            `zentao.ts` call.

JavaScript dynamic values are modelled by the inductive `JVal` (JSON-style
values plus an explicit `undefined` for JavaScript's `undefined`).  Numbers are
modelled as `Int` (the program only manipulates integral numbers:
timestamps, lifetimes, ids).  Effectful operations (HTTP, the config store)
are modelled by explicit state passing over `ZSt`, with transport behaviour
supplied as oracle functions and an event trace recording login calls,
HTTP exchanges and store writes.
-/

/-- A JavaScript/JSON value.  `undefined` models JavaScript `undefined`
(absent object fields read as `undefined`). -/
inductive JVal where
  | undefined : JVal
  | null : JVal
  | bool (b : Bool) : JVal
  | num (n : Int) : JVal
  | str (s : String) : JVal
  | arr (xs : List JVal) : JVal
  | obj (fields : List (String × JVal)) : JVal
deriving Repr

/-- `typeof v === 'object' && v !== null` in JavaScript: true exactly for
objects and arrays (null is excluded by the explicit `!== null` checks in
the source). -/
def isJsObject : JVal → Bool
  | .obj _ => true
  | .arr _ => true
  | _ => false

/-- JavaScript truthiness of a value. -/
def jsTruthy : JVal → Bool
  | .undefined => false
  | .null => false
  | .bool b => b
  | .num n => n != 0
  | .str s => !s.isEmpty
  | .arr _ => true
  | .obj _ => true

/-- Property read `v[k]`: the value of the first field named `k` of an
object, `undefined` otherwise (matching JavaScript, where objects have unique
keys and reading a missing property yields `undefined`). -/
def jsGet (v : JVal) (k : String) : JVal :=
  match v with
  | .obj fs =>
    match fs.find? (fun e => e.1 == k) with
    | some e => e.2
    | none => .undefined
  | _ => .undefined

/-- Property write `v[k] = newV` on an object whose field `k` is present:
replaces the value of every field named `k` (objects have unique keys, so
this is the single field).  On non-objects it is the identity; the source
only assigns to a field it has just read as a string, so the field is
always present there. -/
def jsSet (v : JVal) (k : String) (newV : JVal) : JVal :=
  match v with
  | .obj fs => .obj (fs.map (fun e => if e.1 == k then (e.1, newV) else e))
  | _ => v

/-- Strict equality `v === s` of a value against a string literal. -/
def isStrEq (v : JVal) (s : String) : Bool :=
  match v with
  | .str t => t == s
  | _ => false

/-- The `??` operator: `a ?? b` is `b` when `a` is `null` or `undefined`,
`a` otherwise. -/
def jsCoalesce (a b : JVal) : JVal :=
  match a with
  | .undefined => b
  | .null => b
  | _ => a

mutual
/-- JavaScript `String(v)` coercion, as used when array join / template
strings stringify a value. -/
def jsToString : JVal → String
  | .undefined => "undefined"
  | .null => "null"
  | .bool b => cond b "true" "false"
  | .num n => toString n
  | .str s => s
  | .arr xs => jsToStringList xs
  | .obj _ => "[object Object]"
termination_by structural v => v

/-- `Array.prototype.join(',')`: elements that are `null`/`undefined`
render as the empty string. -/
def jsToStringList : List JVal → String
  | [] => ""
  | [.undefined] => ""
  | [.null] => ""
  | [x] => jsToString x
  | .undefined :: rest => "," ++ jsToStringList rest
  | .null :: rest => "," ++ jsToStringList rest
  | x :: rest => jsToString x ++ "," ++ jsToStringList rest
termination_by structural l => l
end

/-- `Number.parseInt(s, 10)`: skip leading whitespace, optional sign,
then the longest run of decimal digits; `none` models `NaN` (no digits). -/
def parseInt10 (s : String) : Option Int :=
  let cs := s.toList.dropWhile (fun c => c.isWhitespace)
  let signed : Int × List Char :=
    match cs with
    | c :: rest =>
      if c.toNat = 45 then (-1, rest)
      else if c.toNat = 43 then (1, rest)
      else (1, cs)
    | [] => (1, cs)
  let ds := signed.2.takeWhile (fun c => c.isDigit)
  if ds.isEmpty then none
  else some (signed.1 * (ds.foldl (fun a c => a * 10 + (c.toNat - 48)) 0 : Nat))

/-- The constructor argument of `ZentaoConfig` (`src/zentao-config.ts`):
a record as delivered by the server handshake (`?mode=getconfig`) or
restored from the persistent store.  `none` models an absent
(`undefined`) field; `expiredTime` may arrive as a string or a number. -/
structure RawConfig where
  version : Option String := none
  requestType : Option String := none
  requestFix : Option String := none
  moduleVar : Option String := none
  methodVar : Option String := none
  viewVar : Option String := none
  sessionVar : Option String := none
  sessionName : Option String := none
  sessionID : Option String := none
  random : Option Int := none
  serverTime : Option Int := none
  expiredTime : Option (Sum String Int) := none
  tokenField : Option String := none
  tokenUpdateTimeField : Option Int := none
deriving Repr, DecidableEq

/-- The `ZentaoConfig` object state (`src/zentao-config.ts`).
`tokenOpt` is the private `_token` field and `tokenUpdateTime` the private
`_tokenUpdateTime` field (`none` = unset/`undefined`). -/
structure ZentaoConfig where
  version : Option String
  requestType : String
  requestFix : String
  moduleVar : String
  methodVar : String
  viewVar : String
  sessionVar : String
  sessionName : String
  sessionID : Option String
  random : Option Int
  serverTime : Option Int
  expiredTime : Option Int
  tokenOpt : Option String
  tokenUpdateTime : Option Int
  createTime : Int
deriving Repr, DecidableEq

/-- The `ZentaoConfig` constructor: field-by-field copy with the defaults
of the source (note the source's default for `sessionName` is the literal
`zentaosid"` — it contains a stray double quote).  `now` is `Date.now()`
used for `_createTime`. -/
def mkZentaoConfig (c : RawConfig) (now : Int) : ZentaoConfig where
  version := c.version
  requestType := if c.requestType == some "GET" then "GET" else "PATH_INFO"
  requestFix := c.requestFix.getD "-"
  moduleVar := c.moduleVar.getD "m"
  methodVar := c.methodVar.getD "f"
  viewVar := c.viewVar.getD "t"
  sessionVar := c.sessionVar.getD "zentaosid"
  sessionName := c.sessionName.getD "zentaosid\""
  sessionID := c.sessionID
  random := c.random
  serverTime := c.serverTime
  expiredTime :=
    match c.expiredTime with
    | some (.inl s) => parseInt10 s
    | some (.inr n) => some n
    | none => none
  tokenOpt := c.tokenField
  tokenUpdateTime := c.tokenUpdateTimeField
  createTime := now

/-- Getter `token`: `this._token ?? ''`. -/
def ZentaoConfig.token (c : ZentaoConfig) : String :=
  c.tokenOpt.getD ""

/-- Getter `tokenAuth`: `` `${sessionName}=${sessionID}` `` (the session
name is always set by the constructor; a missing session id renders as
the empty string, as `?? ''` does in the source). -/
def ZentaoConfig.tokenAuth (c : ZentaoConfig) : String :=
  c.sessionName ++ "=" ++ c.sessionID.getD ""

/-- `renewToken()`: sets `_token` to `tokenAuth` and stamps
`_tokenUpdateTime = Date.now()` (passed as `now`). -/
def ZentaoConfig.renewToken (c : ZentaoConfig) (now : Int) : ZentaoConfig :=
  { c with tokenOpt := some c.tokenAuth, tokenUpdateTime := some now }

/-- Getter `isTokenExpired` evaluated at time `now` (`Date.now()`):
`true` when `_tokenUpdateTime` is falsy (unset, or the timestamp `0`),
else `Date.now() - _tokenUpdateTime >= (expiredTime - 30) * 1000`.
An unset/`NaN` `expiredTime` makes the `>=` comparison false in
JavaScript, hence `false` here. -/
def ZentaoConfig.isTokenExpired (now : Int) (c : ZentaoConfig) : Bool :=
  match c.tokenUpdateTime with
  | none => true
  | some t =>
    if t == 0 then true
    else
      match c.expiredTime with
      | none => false
      | some e => decide (now - t ≥ (e - 30) * 1000)

/-- Serialization of a `ZentaoConfig` as written to the persistent store
(`this._store.set('config', this._config)` JSON-serializes all fields;
reading it back feeds the same record to the constructor). -/
def serializeConfig (c : ZentaoConfig) : RawConfig where
  version := c.version
  requestType := some c.requestType
  requestFix := some c.requestFix
  moduleVar := some c.moduleVar
  methodVar := some c.methodVar
  viewVar := some c.viewVar
  sessionVar := some c.sessionVar
  sessionName := some c.sessionName
  sessionID := c.sessionID
  random := c.random
  serverTime := c.serverTime
  expiredTime := c.expiredTime.map Sum.inr
  tokenField := c.tokenOpt
  tokenUpdateTimeField := c.tokenUpdateTime

/-! ## Node `querystring` and URI encoding helpers -/

/-- UTF-8 encoding of a single character (byte values as `Nat`). -/
def utf8Bytes (c : Char) : List Nat :=
  let n := c.toNat
  if n < 128 then [n]
  else if n < 2048 then [192 + n / 64, 128 + n % 64]
  else if n < 65536 then [224 + n / 4096, 128 + (n / 64) % 64, 128 + n % 64]
  else [240 + n / 262144, 128 + (n / 4096) % 64, 128 + (n / 64) % 64, 128 + n % 64]

/-- Value of a hexadecimal digit character, if it is one. -/
def hexVal? (c : Char) : Option Nat :=
  if c.isDigit then some (c.toNat - 48)
  else if 65 ≤ c.toNat && c.toNat ≤ 70 then some (c.toNat - 55)
  else if 97 ≤ c.toNat && c.toNat ≤ 102 then some (c.toNat - 87)
  else none

/-- Lenient UTF-8 decoding of a byte sequence; a malformed lead or
continuation byte decodes to U+FFFD, as `decodeURIComponent`-style
decoding of of well-formed input never hits these cases. -/
def utf8Decode : List Nat → List Char
  | [] => []
  | b :: rest =>
    if b < 128 then Char.ofNat b :: utf8Decode rest
    else if b < 192 then Char.ofNat 65533 :: utf8Decode rest
    else if b < 224 then
      let fallback := Char.ofNat 65533 :: utf8Decode rest
      match rest with
      | b2 :: rest2 =>
        if 128 ≤ b2 && b2 < 192 then
          Char.ofNat ((b - 192) * 64 + (b2 - 128)) :: utf8Decode rest2
        else fallback
      | [] => [Char.ofNat 65533]
    else if b < 240 then
      let fallback := Char.ofNat 65533 :: utf8Decode rest
      match rest with
      | b2 :: b3 :: rest3 =>
        if (128 ≤ b2 && b2 < 192) && (128 ≤ b3 && b3 < 192) then
          Char.ofNat ((b - 224) * 4096 + (b2 - 128) * 64 + (b3 - 128)) :: utf8Decode rest3
        else fallback
      | _ => [Char.ofNat 65533]
    else
      let fallback := Char.ofNat 65533 :: utf8Decode rest
      match rest with
      | b2 :: b3 :: b4 :: rest4 =>
        if ((128 ≤ b2 && b2 < 192) && (128 ≤ b3 && b3 < 192)) && (128 ≤ b4 && b4 < 192) then
          Char.ofNat ((b - 240) * 262144 + (b2 - 128) * 4096 + (b3 - 128) * 64 + (b4 - 128))
            :: utf8Decode rest4
        else fallback
      | _ => [Char.ofNat 65533]

/-- Percent/plus unescaping of a query-string component to raw bytes:
`+` becomes a space, `%HH` with two hex digits becomes the byte `HH`,
everything else contributes its UTF-8 bytes (a malformed `%` is kept
literally, as Node's lenient unescape does). -/
def qsUnescapeBytes : List Char → List Nat
  | [] => []
  | c :: rest =>
    if c.toNat = 43 then 32 :: qsUnescapeBytes rest
    else if c.toNat = 37 then
      let fallback := 37 :: qsUnescapeBytes rest
      match rest with
      | a :: b :: rest2 =>
        match hexVal? a, hexVal? b with
        | some ha, some hb => (16 * ha + hb) :: qsUnescapeBytes rest2
        | _, _ => fallback
      | _ => fallback
    else utf8Bytes c ++ qsUnescapeBytes rest

/-- Node `querystring.unescape` on a component. -/
def qsUnescape (s : String) : String :=
  String.mk (utf8Decode (qsUnescapeBytes s.toList))

/-- Split a character list at every `&` (byte 38). -/
def splitAmp : List Char → List (List Char)
  | [] => [[]]
  | c :: rest =>
    match splitAmp rest with
    | s :: ss => if c.toNat = 38 then [] :: s :: ss else (c :: s) :: ss
    | [] => [[c]]

/-- Split one `key=value` segment at its first `=` (text after further
`=` signs belongs to the value) and unescape both sides, as
`querystring.parse` does. -/
def parseSeg (seg : List Char) : String × String :=
  let sp := seg.span (fun c => c.toNat ≠ 61)
  match sp.2 with
  | [] => (qsUnescape (String.mk sp.1), "")
  | _ :: v => (qsUnescape (String.mk sp.1), qsUnescape (String.mk v))

/-- The decoded `key=value` segments of a query string, in textual order
(empty segments between `&` separators are skipped, as in Node). -/
def parseSegs (q : String) : List (String × String) :=
  ((splitAmp q.toList).filter (fun s => !s.isEmpty)).map parseSeg

/-- First pair of an association list with the given key. -/
def findPair (l : List (String × JVal)) (k : String) : Option (String × JVal) :=
  l.find? (fun e => e.1 == k)

/-- Value of the first pair with the given key, `undefined` when absent
(JavaScript property read on the parsed object). -/
def jsLookupPairs (l : List (String × JVal)) (k : String) : JVal :=
  match findPair l k with
  | some e => e.2
  | none => .undefined

/-- Number of pairs carrying the given key. -/
def countKeyPairs (l : List (String × JVal)) (k : String) : Nat :=
  (l.filter (fun e => e.1 == k)).length

/-- Replace the value of the first pair with the given key. -/
def updateFirstValue (l : List (String × JVal)) (k : String) (f : JVal → JVal) :
    List (String × JVal) :=
  match l with
  | [] => []
  | e :: rest =>
    if e.1 == k then (e.1, f e.2) :: rest
    else e :: updateFirstValue rest k f

/-- Duplicate-value combination shared by `querystring.parse` and
`mergeRequestParams`: push onto an existing array, otherwise form the
two-element array `[existingValue, v]`. -/
def combineDup (old v : JVal) : JVal :=
  match old with
  | .arr vs => .arr (vs ++ [v])
  | _ => .arr [old, v]

/-- One accumulation step of `querystring.parse`: a repeated key collects
its values into an array, a fresh key is appended. -/
def qsAdd (acc : List (String × JVal)) (kv : String × String) : List (String × JVal) :=
  if (findPair acc kv.1).isSome then
    updateFirstValue acc kv.1 (fun old => combineDup old (.str kv.2))
  else acc ++ [(kv.1, .str kv.2)]

/-- Node `querystring.parse`: the parsed object as an ordered association
list (keys in first-occurrence order, duplicate keys accumulated). -/
def qsParse (q : String) : List (String × JVal) :=
  (parseSegs q).foldl qsAdd []

/-- Lexicographic comparison of character lists by code point — the
order JavaScript's default `Array.prototype.sort()` comparator induces
on these (ASCII) key strings. -/
def charListLt : List Char → List Char → Bool
  | [], [] => false
  | [], _ :: _ => true
  | _ :: _, [] => false
  | a :: as, b :: bs =>
    if a.toNat < b.toNat then true
    else if b.toNat < a.toNat then false
    else charListLt as bs

/-- String comparison used by the key sort. -/
def strLt (a b : String) : Bool :=
  charListLt a.toList b.toList

/-- Insertion into a list sorted by `strLt` (JavaScript's default
`Array.prototype.sort()` on these keys). -/
def insertStr (x : String) : List String → List String
  | [] => [x]
  | y :: ys => if strLt x y then x :: y :: ys else y :: insertStr x ys

/-- `Array.prototype.sort()` of a string array. -/
def sortStrings (l : List String) : List String :=
  l.foldr insertStr []

/-- `Object.keys(params).sort()` followed by `params[key]` lookups: the
pair list a mapping-like parameter source normalizes to. -/
def objPairsSorted (entries : List (String × JVal)) : List (String × JVal) :=
  (sortStrings (entries.map (fun e => e.1))).map (fun k => (k, jsLookupPairs entries k))

/-! ## `normalizeRequestParams` / `mergeRequestParams` (`src/utils.ts`) -/

/-- One element of an array-shaped `ZentaoRequestParams`: either a bare
string (a positional parameter) or an already-formed `[key, value]`
pair. -/
inductive ParamItem where
  | bare (s : String) : ParamItem
  | pair (k : String) (v : JVal) : ParamItem
deriving Repr

/-- The union type `ZentaoRequestParams` (`src/types.ts`): a query
string, an array of pairs and/or bare strings, or a plain mapping
(modelled as its own-key/value entries in insertion order, keys
unique). -/
inductive ReqParams where
  | str (q : String) : ReqParams
  | list (items : List ParamItem) : ReqParams
  | obj (entries : List (String × JVal)) : ReqParams
deriving Repr

/-- `normalizeRequestParams` (`src/utils.ts`): `undefined` gives `[]`;
a string is `querystring.parse`d and then — like any non-array object —
emitted one pair per key with the keys sorted; an array keeps its order,
bare strings becoming `['', s]` pairs. -/
def normalizeRequestParams : Option ReqParams → List (String × JVal)
  | none => []
  | some (.str q) => objPairsSorted (qsParse q)
  | some (.list items) =>
    items.map (fun it =>
      match it with
      | .bare s => ("", JVal.str s)
      | .pair k v => (k, v))
  | some (.obj entries) => objPairsSorted entries

/-- One merge step of `mergeRequestParams`: a pair with a non-empty key
that already occurs in the accumulator combines into the first existing
pair via `combineDup`; otherwise the pair is appended. -/
def mergeAdd (acc : List (String × JVal)) (p : String × JVal) : List (String × JVal) :=
  if p.1.length ≠ 0 && (findPair acc p.1).isSome then
    updateFirstValue acc p.1 (fun old => combineDup old p.2)
  else acc ++ [p]

/-- `mergeRequestParams` (`src/utils.ts`): normalize the base, then fold
each further source's normalized pairs through `mergeAdd`, left to
right. -/
def mergeRequestParams (base : Option ReqParams) (others : List (Option ReqParams)) :
    List (String × JVal) :=
  others.foldl (fun acc o => (normalizeRequestParams o).foldl mergeAdd acc)
    (normalizeRequestParams base)

/-! ## URL construction and encoding (`src/zentao.ts`) -/

/-- `encodeURIComponent`: characters in the unreserved set
`A-Z a-z 0-9 - _ . ! ~ * ' ( )` pass through; every other character is
percent-encoded byte-wise from its UTF-8 encoding. -/
def encodeURIComponent (s : String) : String :=
  let hexDigit : Nat → Char := fun n =>
    if n < 10 then Char.ofNat (48 + n) else Char.ofNat (55 + n)
  let keep : Char → Bool := fun c =>
    c.isAlphanum ||
      (c.toNat = 45 || c.toNat = 95 || c.toNat = 46 || c.toNat = 33 ||
       c.toNat = 126 || c.toNat = 42 || c.toNat = 39 || c.toNat = 40 || c.toNat = 41)
  String.mk (s.toList.flatMap (fun c =>
    if keep c then [c]
    else (utf8Bytes c).flatMap (fun b => [Char.ofNat 37, hexDigit (b / 16), hexDigit (b % 16)])))

/-- `Array.prototype.join('')` on the URL parts (the join of an
associative append; modelled as a right fold). -/
def joinParts (l : List String) : String :=
  l.foldr (fun a b => a ++ b) ""

/-- `Zentao.createUrl` (`src/zentao.ts`): in PATH_INFO mode the module,
fix, method and then — for each parameter pair — fix and the pair's
*value* are concatenated, ending in `.json`; in GET mode module/method
and each `key=value` (value URI-encoded) become query parameters, ending
with the view parameter `=json`.  `requestType` is the orchestrator's
`this.requestType`; the config is assumed present (the source throws
before this point when it is not, a branch `request` never reaches). -/
def createUrl (baseUrl : String) (requestType : String) (cfg : ZentaoConfig)
    (moduleName : String) (methodName : String) (params : List (String × JVal)) : String :=
  if requestType == "PATH_INFO" then
    joinParts ([baseUrl, moduleName, cfg.requestFix, methodName] ++
      params.flatMap (fun p => [cfg.requestFix, jsToString p.2]) ++ [".json"])
  else
    joinParts ([baseUrl, "?" ++ cfg.moduleVar ++ "=" ++ moduleName ++ "&" ++
        cfg.methodVar ++ "=" ++ methodName] ++
      params.map (fun p => "&" ++ p.1 ++ "=" ++ encodeURIComponent (jsToString p.2)) ++
      ["&" ++ cfg.viewVar ++ "=json"])

/-! ## Response normalization, field filtering, body encoding -/

/-- `slimmingObject` (`src/utils.ts`): on a (non-null) object build a new
object holding, for each requested field in order, that field's value;
anything else is returned unchanged. -/
def slimmingObject (v : JVal) (fields : List String) : JVal :=
  if isJsObject v then .obj (fields.map (fun f => (f, jsGet v f))) else v

/-- The normalized API result `{status, msg, result}` (`ZentaoApiResult`
in `src/types.ts`); `msg`/`result` hold arbitrary values, `result` may be
`undefined`. -/
structure ZentaoApiResult where
  status : Nat
  msg : JVal
  result : JVal
deriving Repr

/-- Does a string start with `[` or `{` (the check guarding the inner
JSON decode of the response's `data` field)? -/
def startsWithBracket (s : String) : Bool :=
  match s.toList with
  | c :: _ => c.toNat = 91 || c.toNat = 123
  | [] => false

/-- The response-normalization block of `Zentao.request`
(`src/zentao.ts`): for an object (or array) body, a string `data` field
starting with `[`/`{` is JSON-decoded in place (`parseJson` models
`JSON.parse` on such input), success is `status === 'success' ||
result === 'success'`, `msg` is `message ?? default`, and `result` is
`data ?? result`; any other body yields `{status: 0, msg: 'error',
result: body}`.  Returns the (possibly updated) remote data together
with the normalized result. -/
def normalizeResponse (parseJson : String → JVal) (remoteData : JVal) :
    JVal × ZentaoApiResult :=
  if isJsObject remoteData then
    let rd :=
      match jsGet remoteData "data" with
      | .str s => if startsWithBracket s then jsSet remoteData "data" (parseJson s) else remoteData
      | _ => remoteData
    let success := isStrEq (jsGet rd "status") "success" || isStrEq (jsGet rd "result") "success"
    (rd,
      { status := if success then 1 else 0,
        msg := jsCoalesce (jsGet rd "message") (.str (cond success "success" "error")),
        result := jsCoalesce (jsGet rd "data") (jsGet rd "result") })
  else (remoteData, { status := 0, msg := .str "error", result := remoteData })

/-- The field-filtering block of `Zentao.request`: when a field
allow-list is supplied and the result payload is an object or array, an
array is mapped element-wise through `slimmingObject`, an object is
filtered directly; otherwise the result passes through. -/
def applyFields (fields : Option (List String)) (r : ZentaoApiResult) : ZentaoApiResult :=
  match fields with
  | none => r
  | some fs =>
    if isJsObject r.result then
      match r.result with
      | .arr xs => { r with result := .arr (xs.map (fun x => slimmingObject x fs)) }
      | other => { r with result := slimmingObject other fs }
    else r

/-- A request body: either a preformatted string or an object to be
form-encoded. -/
inductive DataVal where
  | str (s : String) : DataVal
  | obj (entries : List (String × JVal)) : DataVal

/-- The body-flattening loop of `Zentao.request`: array-valued fields
`k` expand into indexed fields `k[0], k[1], …` (replacing the original
key); scalar fields pass through. -/
def flattenForm (entries : List (String × JVal)) : List (String × JVal) :=
  entries.flatMap (fun e =>
    match e.2 with
    | .arr xs => (xs.enum).map (fun p => (e.1 ++ "[" ++ toString p.1 ++ "]", p.2))
    | _ => [e])

/-- `querystring.stringify`-style rendering of a scalar field value
(non-primitive values render as the empty string). -/
def qsStringifyPrimitive : JVal → String
  | .str s => s
  | .num n => toString n
  | .bool b => cond b "true" "false"
  | _ => ""

/-- `querystring.stringify`: `escape(k)=escape(v)` joined with `&`. -/
def qsStringify (entries : List (String × JVal)) : String :=
  String.intercalate "&" (entries.map (fun e =>
    encodeURIComponent e.1 ++ "=" ++ encodeURIComponent (qsStringifyPrimitive e.2)))

/-- Encoding of `options.data` before the HTTP exchange: strings pass
through, objects are flattened and form-encoded. -/
def encodeData : Option DataVal → Option String
  | none => none
  | some (.str s) => some s
  | some (.obj es) => some (qsStringify (flattenForm es))

/-! ## The orchestrator (`Zentao`) as an explicit state machine -/

/-- The mutable/identity state of a `Zentao` instance that `request`,
`login` and `fetchConfig` read or write: the loaded config, the
persistent store's `config` entry, and the constructor-fixed identity
fields. -/
structure ZSt where
  config : Option ZentaoConfig
  store : Option RawConfig
  preserveToken : Bool
  userRequestType : Option String
  url : String
  account : String
  password : String
deriving Repr, DecidableEq

/-- Getter `Zentao.token`: `this._config?.token ?? ''`. -/
def zentaoToken (st : ZSt) : String :=
  match st.config with
  | some c => c.token
  | none => ""

/-- Observable events of one run: an invocation of `login()`, an HTTP
exchange (method and URL), and a write of the serialized config to the
persistent store. -/
inductive Ev where
  | loginCall : Ev
  | http (method url : String) : Ev
  | storeSet : Ev
deriving Repr, DecidableEq

/-- Errors a run can end in: a transport error propagated from the HTTP
collaborator (opaque payload), or the "Zentao config is empty" `Error`
thrown by `request`. -/
inductive ZErr where
  | transport (e : String) : ZErr
  | configEmpty (msg : String) : ZErr
deriving Repr, DecidableEq

/-- The exact message of the configuration error thrown by
`Zentao.request`. -/
def configEmptyMsg (moduleName methodName : String) : String :=
  "Zentao config is empty, makesure to fetch config before request from " ++
    moduleName ++ "-" ++ methodName ++ "."

/-- An HTTP request handed to the transport collaborator (axios). -/
structure HttpReq where
  method : String
  url : String
  data : Option String
  cookie : Option String
deriving Repr, DecidableEq

/-- The options bag of `Zentao.request` (third parameter). -/
structure ReqOptions where
  params : Option ReqParams := none
  data : Option DataVal := none
  name : Option String := none
  method : Option String := none
  urlOverride : Option String := none
  resultConvertor : Option (JVal → ZentaoApiResult → ZentaoApiResult) := none
  fields : Option (List String) := none

/-- The outcome of one `request` run: final instance state, event trace,
and either the normalized result or the propagated error. -/
structure RunOut where
  st : ZSt
  events : List Ev
  res : Except ZErr ZentaoApiResult

/-- `String.prototype.toLowerCase()` (the source only lower-cases ASCII
module/method names). -/
def jsToLower (s : String) : String :=
  String.mk (s.toList.map Char.toLower)

/-- The auth-gate condition of `Zentao.request`: no config loaded or the
loaded config's token expired, and the target operation is not (after
lower-casing) `user/login`. -/
def gateCond (st : ZSt) (now : Int) (moduleName methodName : String) : Bool :=
  (match st.config with
   | none => true
   | some c => ZentaoConfig.isTokenExpired now c) &&
  !(jsToLower (moduleName ++ "/" ++ methodName) == "user/login")

/-- The body of `Zentao.request` after the auth gate (`src/zentao.ts`):
fail with the configuration error when no config is loaded; otherwise
normalize the parameters, build the URL (unless overridden), encode the
body, perform the exchange with the `tokenAuth` cookie, normalize the
response, apply the converter and the field filter, and — exactly when
the call is `user/login` and the final result's status is `1` — renew
the token and (when token persistence is on) write the serialized config
to the store.  Transport errors are rethrown. -/
def afterGate (st1 : ZSt) (evs : List Ev) (httpO : HttpReq → Except String JVal)
    (parseJson : String → JVal) (now : Int) (moduleName methodName : String)
    (opts : ReqOptions) : RunOut :=
  match st1.config with
  | none => ⟨st1, evs, .error (.configEmpty (configEmptyMsg moduleName methodName))⟩
  | some cfg =>
    let params := normalizeRequestParams opts.params
    let url := opts.urlOverride.getD
      (createUrl st1.url (st1.userRequestType.getD cfg.requestType) cfg
        moduleName methodName params)
    let method := opts.method.getD "GET"
    match httpO ⟨method, url, encodeData opts.data, some cfg.tokenAuth⟩ with
    | .error e => ⟨st1, evs ++ [.http method url], .error (.transport e)⟩
    | .ok remoteData =>
      let pr := normalizeResponse parseJson remoteData
      let r1 :=
        match opts.resultConvertor with
        | some f => f pr.1 pr.2
        | none => pr.2
      let r2 := applyFields opts.fields r1
      if (moduleName ++ "/" ++ methodName == "user/login") && (r2.status == 1) then
        let cfg2 := cfg.renewToken now
        ⟨{ st1 with
            config := some cfg2,
            store := if st1.preserveToken then some (serializeConfig cfg2) else st1.store },
          evs ++ [.http method url] ++ (if st1.preserveToken then [Ev.storeSet] else []),
          .ok r2⟩
      else ⟨st1, evs ++ [.http method url], .ok r2⟩

/-- `Zentao.request(moduleName, methodName, options)` with the `login()`
operation supplied as an oracle (state transformer returning its own
event trace and result): when the auth-gate condition holds, `login()`
runs first and its failure propagates; then the post-gate body runs. -/
def requestRun (st : ZSt) (loginO : ZSt → ZSt × List Ev × Except ZErr ZentaoApiResult)
    (httpO : HttpReq → Except String JVal) (parseJson : String → JVal) (now : Int)
    (moduleName methodName : String) (opts : ReqOptions) : RunOut :=
  if gateCond st now moduleName methodName then
    match loginO st with
    | (st1, levs, .error e) => ⟨st1, Ev.loginCall :: levs, .error e⟩
    | (st1, levs, .ok _) =>
      afterGate st1 (Ev.loginCall :: levs) httpO parseJson now moduleName methodName opts
  else afterGate st [] httpO parseJson now moduleName methodName opts

/-- Typed projection of a handshake/JSON payload to the fields the
`ZentaoConfig` constructor reads (fields of unexpected type are treated
as absent; the server handshake delivers the documented types). -/
def rawOfJVal (v : JVal) : RawConfig where
  version := match jsGet v "version" with | .str s => some s | _ => none
  requestType := match jsGet v "requestType" with | .str s => some s | _ => none
  requestFix := match jsGet v "requestFix" with | .str s => some s | _ => none
  moduleVar := match jsGet v "moduleVar" with | .str s => some s | _ => none
  methodVar := match jsGet v "methodVar" with | .str s => some s | _ => none
  viewVar := match jsGet v "viewVar" with | .str s => some s | _ => none
  sessionVar := match jsGet v "sessionVar" with | .str s => some s | _ => none
  sessionName := match jsGet v "sessionName" with | .str s => some s | _ => none
  sessionID := match jsGet v "sessionID" with | .str s => some s | _ => none
  random := match jsGet v "random" with | .num n => some n | _ => none
  serverTime := match jsGet v "serverTime" with | .num n => some n | _ => none
  expiredTime :=
    match jsGet v "expiredTime" with
    | .str s => some (.inl s)
    | .num n => some (.inr n)
    | _ => none
  tokenField := match jsGet v "_token" with | .str s => some s | _ => none
  tokenUpdateTimeField := match jsGet v "_tokenUpdateTime" with | .num n => some n | _ => none

/-- `Zentao.fetchConfig` (`src/zentao.ts`): GET
`` `${this._url}/?mode=getconfig` ``; on success a new `ZentaoConfig`
built from the response body replaces the instance's config; on failure
the error is rethrown and the state is left as it was. -/
def fetchConfigRun (st : ZSt) (httpO : HttpReq → Except String JVal) (now : Int) :
    ZSt × List Ev × Except String ZentaoConfig :=
  let url := st.url ++ "/?mode=getconfig"
  match httpO ⟨"GET", url, none, none⟩ with
  | .error e => (st, [.http "GET" url], .error e)
  | .ok d =>
    let cfg := mkZentaoConfig (rawOfJVal d) now
    ({ st with config := some cfg }, [.http "GET" url], .ok cfg)

/-- The result converter installed by `Zentao.login`: when the raw
response has a truthy `user` field, substitute it as the result
payload. -/
def loginResultConv (remoteData : JVal) (result : ZentaoApiResult) : ZentaoApiResult :=
  if jsTruthy (jsGet remoteData "user") then { result with result := jsGet remoteData "user" }
  else result

/-- `Zentao.login` (`src/zentao.ts`): always `fetchConfig()` first
(propagating its failure), then POST the `user/login` operation with
account and password as form fields and the login result converter.
The inner `request` run's gate can never fire for `user/login`, so its
login oracle is a stub that is provably never consulted. -/
def loginRun (st : ZSt) (httpO : HttpReq → Except String JVal) (parseJson : String → JVal)
    (now : Int) : ZSt × List Ev × Except ZErr ZentaoApiResult :=
  match fetchConfigRun st httpO now with
  | (st1, evs, .error e) => (st1, evs, .error (.transport e))
  | (st1, evs, .ok _) =>
    let out := requestRun st1
      (fun s => (s, [], .ok { status := 0, msg := .undefined, result := .undefined }))
      httpO parseJson now "user" "login"
      { method := some "POST",
        data := some (.obj [("account", .str st.account), ("password", .str st.password)]),
        resultConvertor := some loginResultConv }
    (out.st, evs ++ out.events, out.res)

/-- `Zentao.request` with the real `login()` wired in. -/
def zentaoRequest (st : ZSt) (httpO : HttpReq → Except String JVal)
    (parseJson : String → JVal) (now : Int) (moduleName methodName : String)
    (opts : ReqOptions) : RunOut :=
  requestRun st (fun s => loginRun s httpO parseJson now) httpO parseJson now
    moduleName methodName opts

/-! ## Spec-side definitions and concrete scenarios -/

/-- The response's `data` field after the conditional inner JSON decode,
read off the *original* body (spec formulation of step 8 of `request`). -/
def decodedDataField (parseJson : String → JVal) (body : JVal) : JVal :=
  match jsGet body "data" with
  | .str s => if startsWithBracket s then parseJson s else .str s
  | other => other

/-- Response normalization as the specification words it (all fields read
off the original body): success iff the top-level `status` or `result`
field equals `"success"`; `msg` from the `message` field or the
`'success'`/`'error'` default; `result` from the (decoded) `data` field
or else the `result` field; a non-object body maps to
`{status: 0, msg: 'error', result: body}`.  Stated separately from
`normalizeResponse` so the implementation can be proved to refine it. -/
def normalizeResponseSpec (parseJson : String → JVal) (body : JVal) :
    JVal × ZentaoApiResult :=
  if isJsObject body then
    let success :=
      isStrEq (jsGet body "status") "success" || isStrEq (jsGet body "result") "success"
    let remote :=
      match jsGet body "data" with
      | .str s => if startsWithBracket s then jsSet body "data" (parseJson s) else body
      | _ => body
    (remote,
      { status := if success then 1 else 0,
        msg := jsCoalesce (jsGet body "message") (.str (cond success "success" "error")),
        result := jsCoalesce (decodedDataField parseJson body) (jsGet body "result") })
  else (body, { status := 0, msg := .str "error", result := body })

/-- Configs reachable through the `ZentaoConfig` lifecycle: construction
from a server handshake payload (which carries no `_token` /
`_tokenUpdateTime` fields), restoration from the serialized snapshot of
a reachable config, and `renewToken` at any time. -/
inductive ReachableConfig : ZentaoConfig → Prop where
  | handshake (p : RawConfig) (now : Int) (htok : p.tokenField = none)
      (htime : p.tokenUpdateTimeField = none) : ReachableConfig (mkZentaoConfig p now)
  | restore (c : ZentaoConfig) (now : Int) (h : ReachableConfig c) :
      ReachableConfig (mkZentaoConfig (serializeConfig c) now)
  | renew (c : ZentaoConfig) (now : Int) (h : ReachableConfig c) :
      ReachableConfig (c.renewToken now)

/-- The values of the decoded segments of query string `q` carrying key
`k`, in textual order. -/
def qsVals (q : String) (k : String) : List String :=
  (parseSegs q).filterMap (fun kv => if kv.1 == k then some kv.2 else none)

/-- A demo handshake payload (the shape documented in
`zentao-config.ts`'s constructor example). -/
def demoHandshakeJ : JVal := .obj
  [("version", .str "12.4.3"), ("requestType", .str "PATH_INFO"), ("requestFix", .str "-"),
   ("moduleVar", .str "m"), ("methodVar", .str "f"), ("viewVar", .str "t"),
   ("sessionVar", .str "zentaosid"), ("sessionName", .str "zentaosid"),
   ("sessionID", .str "sid123"), ("random", .num 7795), ("expiredTime", .str "1440"),
   ("serverTime", .num 1615098427)]

/-- The same demo handshake payload as a `RawConfig`. -/
def demoRaw : RawConfig := rawOfJVal demoHandshakeJ

/-- A demo server config with GET dispatch defaults (`m`/`f`/`t`, fix
`-`), as used by the dispatch-scenario claims. -/
def demoCfg : ZentaoConfig := mkZentaoConfig demoRaw 0

/-- The demo config with a given `expiredTime` (seconds) and token issue
time (milliseconds). -/
def cfgIssuedAt (lifetime issuedAt : Int) : ZentaoConfig :=
  { demoCfg with
    expiredTime := some lifetime,
    tokenOpt := some "zentaosid=sid123",
    tokenUpdateTime := some issuedAt }

/-- A successful login-style response body. -/
def demoLoginOkJ : JVal := .obj
  [("status", .str "success"), ("user", .obj [("account", .str "demo")])]

/-- A transport oracle that answers the handshake URL with the demo
config payload and everything else with the successful login body. -/
def demoHttpO : HttpReq → Except String JVal := fun req =>
  if req.url = "http://demo.zentao.net//?mode=getconfig" then .ok demoHandshakeJ
  else .ok demoLoginOkJ

/-- A fresh orchestrator state: no config loaded, token persistence off. -/
def demoSt : ZSt :=
  ⟨none, none, false, none, "http://demo.zentao.net/", "demo", "123456"⟩

/-- The values among a decoded segment list that carry key `k`, in
order. -/
def valsOfSegs (ps : List (String × String)) (k : String) : List String :=
  ps.filterMap (fun kv => if kv.1 == k then some kv.2 else none)

/-- The parsed-object value a key accumulates to after
`querystring.parse`: absent for no occurrence, the bare string for one,
the array of all values for several. -/
def collapseVals : List String → JVal
  | [] => .undefined
  | [v] => .str v
  | vs => .arr (vs.map .str)

/-! ## Helper lemmas -/

theorem find?_map_keyfix (fs : List (String × JVal)) (g : String × JVal → String × JVal)
    (hg : ∀ e, (g e).1 = e.1) (p : String → Bool) :
    (fs.map g).find? (fun e => p e.1) = (fs.find? (fun e => p e.1)).map g := by
  induction fs with
  | nil => rfl
  | cons e rest ih =>
    by_cases hp : p e.1
    · simp [List.find?_cons_of_pos, hp, hg]
    · rw [List.map_cons, List.find?_cons_of_neg _ (by simpa [hg] using hp),
        List.find?_cons_of_neg _ (by simpa using hp), ih]

theorem jsGet_jsSet_of_ne (v : JVal) (k k' : String) (x : JVal) (h : k ≠ k') :
    jsGet (jsSet v k x) k' = jsGet v k' := by
  cases v <;> simp only [jsGet, jsSet]
  case obj fs =>
    rw [find?_map_keyfix fs (fun e => if e.1 == k then (e.1, x) else e)
      (fun e => by by_cases hb : e.1 == k <;> simp [hb]) (fun s => s == k')]
    cases hf : fs.find? (fun e => e.1 == k') with
    | none => simp
    | some e =>
      have hk' := List.find?_some hf
      have hke : e.1 = k' := by simpa using hk'
      simp [hke, Ne.symm h]

theorem jsGet_jsSet_self (v : JVal) (k : String) (s : String) (x : JVal)
    (h : jsGet v k = .str s) : jsGet (jsSet v k x) k = x := by
  cases v <;> simp only [jsGet, jsSet] at h ⊢ <;> try exact absurd h (by simp)
  case obj fs =>
    rw [find?_map_keyfix fs (fun e => if e.1 == k then (e.1, x) else e)
      (fun e => by by_cases hb : e.1 == k <;> simp [hb]) (fun t => t == k)]
    cases hf : fs.find? (fun e => e.1 == k) with
    | none => rw [hf] at h; exact absurd h (by simp)
    | some e =>
      have hk := List.find?_some hf
      have hke : e.1 = k := by simpa using hk
      simp [hke]

/-- C6: response normalization of `request()` — for every response body
that is a JSON object (in the JavaScript sense of
`typeof body === 'object' && body !== null`), the normalized result has
status 1 exactly when the body's top-level `status` or `result` field is
the string `success` (a string `data` field starting with `[` or `{`
being JSON-decoded in place first), `msg` comes from the `message` field
or the `'success'`/`'error'` default, and `result` comes from the
(decoded) `data` field or else the `result` field; every non-object body
yields exactly `{status: 0, msg: 'error', result: body}` — returned as
data, never thrown (`normalizeResponse` is total). -/
theorem C6_response_normalization (parseJson : String → JVal) (body : JVal) :
    normalizeResponse parseJson body = normalizeResponseSpec parseJson body := by
  unfold normalizeResponse normalizeResponseSpec decodedDataField
  by_cases hobj : isJsObject body = true
  case neg => simp [hobj]
  case pos =>
    simp only [hobj, if_pos]
    cases hd : jsGet body "data"
    case str s =>
      by_cases hb : startsWithBracket s = true
      · have h1 := jsGet_jsSet_of_ne body "data" "status" (parseJson s) (by decide)
        have h2 := jsGet_jsSet_of_ne body "data" "result" (parseJson s) (by decide)
        have h3 := jsGet_jsSet_of_ne body "data" "message" (parseJson s) (by decide)
        have h4 := jsGet_jsSet_self body "data" s (parseJson s) hd
        simp [hb, h1, h2, h3, h4]
      · simp [hb, hd]
    all_goals simp [hd]

/-- C1 (counterexample): with `expiredTime = 1440` and the token issued
exactly `1410` seconds before `now`, `isTokenExpired` is `true` — the
claim asserts it is `false` there (it takes the `lifetime - 30` boundary
to be exclusive, but the source compares with `>=`). -/
theorem C1_boundary_cex :
    ZentaoConfig.isTokenExpired 1700000000000
      (cfgIssuedAt 1440 (1700000000000 - 1410 * 1000)) = true := by decide

/-- C1 (amended): the boundary at `lifetime - 30` seconds is *inclusive*:
with `expiredTime = 1440`, a token issued `1409` seconds before `now` is
not yet expired, and one issued `1410` seconds before `now` is expired
(expiry begins at exactly `1410` elapsed seconds). -/
theorem C1_boundary_amended (now : Int) (h : 1410000 < now) :
    ZentaoConfig.isTokenExpired now (cfgIssuedAt 1440 (now - 1409 * 1000)) = false ∧
    ZentaoConfig.isTokenExpired now (cfgIssuedAt 1440 (now - 1410 * 1000)) = true := by
  unfold ZentaoConfig.isTokenExpired cfgIssuedAt
  constructor <;> (simp; try omega)

/-- Witness for `C1_boundary_amended` at a concrete clock value. -/
theorem C1_boundary_amended_witness :
    ZentaoConfig.isTokenExpired 1700000000000
      (cfgIssuedAt 1440 (1700000000000 - 1409 * 1000)) = false ∧
    ZentaoConfig.isTokenExpired 1700000000000
      (cfgIssuedAt 1440 (1700000000000 - 1410 * 1000)) = true :=
  C1_boundary_amended 1700000000000 (by decide)

/-- C7: through the whole `ZentaoConfig` lifecycle — construction from a
handshake payload, restoration from a stored snapshot, and any number of
`renewToken` calls — a non-empty token implies the token-issue timestamp
is set. -/
theorem C7_token_invariant (c : ZentaoConfig) (h : ReachableConfig c)
    (htok : c.token ≠ "") : c.tokenUpdateTime.isSome = true := by
  induction h with
  | handshake p now hp ht =>
    exfalso
    exact htok (by simp [ZentaoConfig.token, mkZentaoConfig, hp])
  | restore c now h ih =>
    have : c.token ≠ "" := by
      simpa [ZentaoConfig.token, mkZentaoConfig, serializeConfig] using htok
    simpa [mkZentaoConfig, serializeConfig] using ih this
  | renew c now h ih => simp [ZentaoConfig.renewToken]

/-- Witness for `C7_token_invariant`: a freshly renewed handshake config
has a non-empty token, hence a set issue time. -/
theorem C7_token_invariant_witness :
    ((mkZentaoConfig demoRaw 100).renewToken 200).tokenUpdateTime.isSome = true :=
  C7_token_invariant _
    (ReachableConfig.renew _ 200 (ReachableConfig.handshake demoRaw 100 (by decide) (by decide)))
    (by decide)

/-- C3 (counterexample): in PATH_INFO mode with fix `-`, the URL built
for module `product`, method `all`, params `[["status","noclosed"]]` is
`…product-all-noclosed.json` — the parameter *key* `status` is not
emitted, so the claimed `…product-all-status-noclosed.json` is wrong. -/
theorem C3_dispatch_cex :
    createUrl "http://demo.zentao.net/" "PATH_INFO" demoCfg "product" "all"
        [("status", .str "noclosed")] =
      "http://demo.zentao.net/product-all-noclosed.json" ∧
    "http://demo.zentao.net/product-all-noclosed.json" ≠
      "http://demo.zentao.net/product-all-status-noclosed.json" := by
  constructor
  · decide
  · decide

/-- C3 (amended): with module `product`, method `all`, params
`[["status","noclosed"]]`, QUERY_PARAMS (GET) mode builds
`base + '?m=product&f=all&status=noclosed&t=json'` and PATH_SEGMENTS
(PATH_INFO) mode with fix `-` builds `base + 'product-all-noclosed.json'`
(parameter keys are dropped in path mode; only values are appended). -/
theorem C3_dispatch_amended (base : String) :
    createUrl base "GET" demoCfg "product" "all" [("status", .str "noclosed")] =
      base ++ "?m=product&f=all&status=noclosed&t=json" ∧
    createUrl base "PATH_INFO" demoCfg "product" "all" [("status", .str "noclosed")] =
      base ++ "product-all-noclosed.json" := by
  constructor
  · show base ++ _ = _
    exact congrArg (fun t => base ++ t) (by decide)
  · show base ++ _ = _
    exact congrArg (fun t => base ++ t) (by decide)

/-- C10: `fetchConfig()` is atomic with respect to the stored
configuration — when the handshake exchange fails, the error is rethrown
and the whole instance state (in particular the config) is exactly what
it was; when it succeeds, the config is replaced by one built from the
response body. -/
theorem C10_fetchConfig_atomic (st : ZSt) (httpO : HttpReq → Except String JVal) (now : Int) :
    (∀ e, httpO ⟨"GET", st.url ++ "/?mode=getconfig", none, none⟩ = .error e →
      fetchConfigRun st httpO now =
        (st, [.http "GET" (st.url ++ "/?mode=getconfig")], .error e)) ∧
    (∀ d, httpO ⟨"GET", st.url ++ "/?mode=getconfig", none, none⟩ = .ok d →
      (fetchConfigRun st httpO now).1.config = some (mkZentaoConfig (rawOfJVal d) now)) := by
  constructor
  · intro e he
    simp [fetchConfigRun, he]
  · intro d hd
    simp [fetchConfigRun, hd]

/-- Witness for `C10_fetchConfig_atomic`: a concrete failing transport
leaves the state untouched and rethrows; a concrete successful one
installs the parsed config. -/
theorem C10_fetchConfig_atomic_witness :
    fetchConfigRun demoSt (fun _ => .error "ECONNREFUSED") 5 =
      (demoSt, [.http "GET" "http://demo.zentao.net//?mode=getconfig"], .error "ECONNREFUSED") ∧
    (fetchConfigRun demoSt (fun _ => .ok demoHandshakeJ) 5).1.config =
      some (mkZentaoConfig demoRaw 5) :=
  ⟨(C10_fetchConfig_atomic demoSt (fun _ => .error "ECONNREFUSED") 5).1 "ECONNREFUSED" rfl,
   (C10_fetchConfig_atomic demoSt (fun _ => .ok demoHandshakeJ) 5).2 demoHandshakeJ rfl⟩

theorem findPair_cons (e : String × JVal) (rest : List (String × JVal)) (k : String) :
    findPair (e :: rest) k = if e.1 == k then some e else findPair rest k := by
  unfold findPair
  by_cases he : e.1 == k <;> simp [List.find?, he]

theorem findPair_append_left_none (acc₁ acc₂ : List (String × JVal)) (k : String)
    (h : findPair acc₁ k = none) : findPair (acc₁ ++ acc₂) k = findPair acc₂ k := by
  induction acc₁ with
  | nil => rfl
  | cons e rest ih =>
    rw [findPair_cons] at h
    by_cases he : e.1 == k
    · rw [if_pos he] at h
      exact absurd h (by simp)
    · rw [if_neg he] at h
      rw [List.cons_append, findPair_cons, if_neg he]
      exact ih h

theorem updateFirstValue_append (acc₁ acc₂ : List (String × JVal)) (k : String) (old : JVal)
    (f : JVal → JVal) (h : findPair acc₁ k = none) :
    updateFirstValue (acc₁ ++ (k, old) :: acc₂) k f = acc₁ ++ (k, f old) :: acc₂ := by
  induction acc₁ with
  | nil => simp [updateFirstValue]
  | cons e rest ih =>
    rw [findPair_cons] at h
    by_cases he : e.1 == k
    · rw [if_pos he] at h
      exact absurd h (by simp)
    · rw [if_neg he] at h
      simp [updateFirstValue, he, ih h]

theorem string_length_ne_zero {s : String} (h : s ≠ "") : s.length ≠ 0 := by
  intro h0
  apply h
  cases s with
  | mk data =>
    cases data with
    | nil => rfl
    | cons c cs => simp [String.length] at h0

/-- C4: the parameter-merge collision algorithm of `mergeRequestParams`.
(1) A pair whose key is empty or not yet present is appended unchanged;
(2) a pair with a non-empty key already present combines into the first
existing pair with that key — pushing onto an array value, or replacing
a scalar value by the two-element array (`combineDup`); and (3) the
three-way merge of `{foo:'bar',hello:'world'}`, `'answer=42'`,
`[['foo','ter'],['say','hi']]` is exactly
`[['foo',['bar','ter']],['hello','world'],['answer','42'],['say','hi']]`. -/
theorem C4_merge_collisions :
    (∀ (acc : List (String × JVal)) (k : String) (v : JVal),
      (k = "" ∨ findPair acc k = none) → mergeAdd acc (k, v) = acc ++ [(k, v)]) ∧
    (∀ (acc₁ acc₂ : List (String × JVal)) (k : String) (v old : JVal), k ≠ "" →
      findPair acc₁ k = none →
      mergeAdd (acc₁ ++ (k, old) :: acc₂) (k, v) = acc₁ ++ (k, combineDup old v) :: acc₂) ∧
    mergeRequestParams (some (.obj [("foo", .str "bar"), ("hello", .str "world")]))
        [some (.str "answer=42"),
         some (.list [.pair "foo" (.str "ter"), .pair "say" (.str "hi")])] =
      [("foo", .arr [.str "bar", .str "ter"]), ("hello", .str "world"),
       ("answer", .str "42"), ("say", .str "hi")] := by
  refine ⟨?_, ?_, rfl⟩
  · intro acc k v h
    unfold mergeAdd
    rcases h with h | h
    · subst h
      simp
    · simp [h]
  · intro acc₁ acc₂ k v old hk h1
    have hsome : (findPair (acc₁ ++ (k, old) :: acc₂) k).isSome = true := by
      rw [findPair_append_left_none _ _ _ h1, findPair_cons, if_pos (by simp)]
      rfl
    unfold mergeAdd
    rw [if_pos (by simp [hsome, string_length_ne_zero hk])]
    exact updateFirstValue_append acc₁ acc₂ k old _ h1

theorem charListLt_asymm : ∀ (a b : List Char), charListLt a b = true → charListLt b a = false
  | [], [] => by simp [charListLt]
  | [], _ :: _ => by simp [charListLt]
  | _ :: _, [] => by simp [charListLt]
  | x :: xs, y :: ys => by
    simp only [charListLt]
    by_cases h1 : x.toNat < y.toNat
    · intro _
      rw [if_neg (by omega), if_pos h1]
    · by_cases h2 : y.toNat < x.toNat
      · intro hc
        rw [if_neg h1, if_pos h2] at hc
        exact absurd hc (by simp)
      · intro hc
        rw [if_neg h1, if_neg h2] at hc
        rw [if_neg h2, if_neg h1]
        exact charListLt_asymm xs ys hc

theorem charListLt_trans :
    ∀ (a b c : List Char), charListLt a b = true → charListLt b c = true →
      charListLt a c = true
  | [], [], _ => by simp [charListLt]
  | [], _ :: _, [] => by intro h1 h2; simp [charListLt] at h2
  | [], _ :: _, _ :: _ => by intro _ _; simp [charListLt]
  | _ :: _, [], _ => by intro h1 _; simp [charListLt] at h1
  | _ :: _, _ :: _, [] => by intro _ h2; simp [charListLt] at h2
  | x :: xs, y :: ys, z :: zs => by
    simp only [charListLt]
    intro h1 h2
    by_cases a1 : x.toNat < y.toNat
    · by_cases a2 : y.toNat < z.toNat
      · rw [if_pos (by omega)]
      · by_cases a3 : z.toNat < y.toNat
        · rw [if_neg a2, if_pos a3] at h2
          exact absurd h2 (by simp)
        · rw [if_pos (by omega)]
    · by_cases a3 : y.toNat < x.toNat
      · rw [if_neg a1, if_pos a3] at h1
        exact absurd h1 (by simp)
      · by_cases a2 : y.toNat < z.toNat
        · rw [if_pos (by omega)]
        · by_cases a4 : z.toNat < y.toNat
          · rw [if_neg a2, if_pos a4] at h2
            exact absurd h2 (by simp)
          · rw [if_neg a1, if_neg a3] at h1
            rw [if_neg a2, if_neg a4] at h2
            rw [if_neg (by omega), if_neg (by omega)]
            exact charListLt_trans xs ys zs h1 h2

theorem strLt_asymm {a b : String} (h : strLt a b = true) : strLt b a = false :=
  charListLt_asymm _ _ h

theorem strLt_trans {a b c : String} (h1 : strLt a b = true) (h2 : strLt b c = true) :
    strLt a c = true :=
  charListLt_trans _ _ _ h1 h2

theorem mem_insertStr {x k : String} : ∀ {l : List String}, k ∈ insertStr x l ↔ k = x ∨ k ∈ l
  | [] => by simp [insertStr]
  | y :: ys => by
    simp only [insertStr]
    by_cases h : strLt x y
    · simp [h]
    · simp only [h, if_false, Bool.false_eq_true, List.mem_cons, mem_insertStr]
      tauto

theorem pairwise_insertStr {x : String} : ∀ {l : List String},
    l.Pairwise (fun a b => strLt b a = false) →
    (insertStr x l).Pairwise (fun a b => strLt b a = false)
  | [], _ => by simp [insertStr]
  | y :: ys, h => by
    rw [List.pairwise_cons] at h
    obtain ⟨hy, hys⟩ := h
    by_cases hxy : strLt x y = true
    · simp only [insertStr, hxy, if_true]
      rw [List.pairwise_cons]
      refine ⟨?_, by rw [List.pairwise_cons]; exact ⟨hy, hys⟩⟩
      intro z hz
      rcases List.mem_cons.mp hz with rfl | hz'
      · exact strLt_asymm hxy
      · cases hzx : strLt z x with
        | false => rfl
        | true => exact absurd (strLt_trans hzx hxy) (by simp [hy z hz'])
    · simp only [insertStr, hxy, Bool.false_eq_true, if_false]
      rw [List.pairwise_cons]
      refine ⟨?_, pairwise_insertStr hys⟩
      intro z hz
      rcases mem_insertStr.mp hz with rfl | hz'
      · simpa using hxy
      · exact hy z hz'

theorem pairwise_sortStrings (l : List String) :
    (sortStrings l).Pairwise (fun a b => strLt b a = false) := by
  induction l with
  | nil => simp [sortStrings]
  | cons x xs ih => exact pairwise_insertStr ih

theorem mem_sortStrings {k : String} : ∀ {l : List String}, k ∈ sortStrings l ↔ k ∈ l
  | [] => by simp [sortStrings]
  | x :: xs => by
    show k ∈ insertStr x (sortStrings xs) ↔ _
    rw [mem_insertStr, mem_sortStrings]
    simp

theorem count_insertStr (x k : String) : ∀ (l : List String),
    (insertStr x l).count k = (x :: l).count k
  | [] => rfl
  | y :: ys => by
    simp only [insertStr]
    by_cases h : strLt x y
    · simp [h]
    · simp only [h, if_false, Bool.false_eq_true]
      rw [List.count_cons, count_insertStr x k ys]
      simp [List.count_cons]
      omega

theorem count_sortStrings (l : List String) (k : String) :
    (sortStrings l).count k = l.count k := by
  induction l with
  | nil => rfl
  | cons x xs ih =>
    show (insertStr x (sortStrings xs)).count k = _
    rw [count_insertStr]
    simp [List.count_cons, ih]

theorem countKeyPairs_cons (e : String × JVal) (rest : List (String × JVal)) (k : String) :
    countKeyPairs (e :: rest) k = countKeyPairs rest k + (if e.1 == k then 1 else 0) := by
  by_cases h : e.1 == k <;> simp [countKeyPairs, List.filter_cons, h]

theorem countKeyPairs_eq_count_keys (m : List (String × JVal)) (k : String) :
    countKeyPairs m k = (m.map (fun e => e.1)).count k := by
  induction m with
  | nil => rfl
  | cons e rest ih =>
    rw [countKeyPairs_cons, List.map_cons, List.count_cons, ih]

theorem findPair_eq_none_iff (m : List (String × JVal)) (k : String) :
    findPair m k = none ↔ countKeyPairs m k = 0 := by
  induction m with
  | nil => simp [findPair, countKeyPairs]
  | cons e rest ih =>
    rw [findPair_cons, countKeyPairs_cons]
    by_cases h : e.1 == k <;> simp [h, ih]

theorem countKeyPairs_append_single (m : List (String × JVal)) (e : String × JVal)
    (k : String) :
    countKeyPairs (m ++ [e]) k = countKeyPairs m k + (if e.1 == k then 1 else 0) := by
  by_cases h : e.1 == k <;>
    simp [countKeyPairs, List.filter_append, List.filter_cons, h]

theorem findPair_append_some (m l : List (String × JVal)) (k : String) (e : String × JVal)
    (h : findPair m k = some e) : findPair (m ++ l) k = some e := by
  induction m with
  | nil => simp [findPair] at h
  | cons e0 rest ih =>
    rw [findPair_cons] at h
    rw [List.cons_append, findPair_cons]
    by_cases h0 : e0.1 == k
    · rw [if_pos h0] at h ⊢
      exact h
    · rw [if_neg h0] at h ⊢
      exact ih h

theorem updateFirstValue_countKey (m : List (String × JVal)) (k0 : String) (f : JVal → JVal)
    (k : String) : countKeyPairs (updateFirstValue m k0 f) k = countKeyPairs m k := by
  induction m with
  | nil => rfl
  | cons e rest ih =>
    simp only [updateFirstValue]
    by_cases h : e.1 == k0
    · rw [if_pos h, countKeyPairs_cons, countKeyPairs_cons]
    · rw [if_neg h, countKeyPairs_cons, countKeyPairs_cons, ih]

theorem updateFirstValue_findPair_self (m : List (String × JVal)) (k : String)
    (f : JVal → JVal) (e : String × JVal) (h : findPair m k = some e) :
    findPair (updateFirstValue m k f) k = some (e.1, f e.2) := by
  induction m with
  | nil => simp [findPair] at h
  | cons e0 rest ih =>
    rw [findPair_cons] at h
    by_cases h0 : e0.1 == k
    · rw [if_pos h0] at h
      have he : e0 = e := by simpa using h
      subst he
      simp only [updateFirstValue, if_pos h0]
      rw [findPair_cons, if_pos (by simpa using h0)]
    · rw [if_neg h0] at h
      simp only [updateFirstValue, if_neg h0]
      rw [findPair_cons, if_neg h0]
      exact ih h

theorem updateFirstValue_findPair_ne (m : List (String × JVal)) (k0 k : String)
    (f : JVal → JVal) (hne : k0 ≠ k) :
    findPair (updateFirstValue m k0 f) k = findPair m k := by
  induction m with
  | nil => rfl
  | cons e rest ih =>
    simp only [updateFirstValue]
    by_cases h0 : e.1 == k0
    · have he : e.1 = k0 := by simpa using h0
      rw [if_pos h0, findPair_cons, findPair_cons]
      have hek : (e.1 == k) = false := by
        subst he
        simpa using hne
      simp [hek]
    · rw [if_neg h0, findPair_cons, findPair_cons]
      by_cases hk : e.1 == k
      · simp [hk]
      · simp [hk, ih]

theorem valsOfSegs_append_single (ps : List (String × String)) (p : String × String)
    (k : String) :
    valsOfSegs (ps ++ [p]) k = valsOfSegs ps k ++ (if p.1 == k then [p.2] else []) := by
  by_cases h : p.1 = k <;>
    simp [valsOfSegs, List.filterMap_append, List.filterMap, h]

theorem collapseVals_push (v : String) (vs : List String) (w : String) :
    combineDup (collapseVals (v :: vs)) (.str w) = collapseVals ((v :: vs) ++ [w]) := by
  cases vs with
  | nil => rfl
  | cons u us => simp [collapseVals, combineDup]

theorem qsAdd_eq (acc : List (String × JVal)) (kv : String × String) :
    qsAdd acc kv =
      if (findPair acc kv.1).isSome then
        updateFirstValue acc kv.1 (fun old => combineDup old (.str kv.2))
      else acc ++ [(kv.1, .str kv.2)] := rfl

theorem qsAdd_foldl_spec (ps : List (String × String)) (k : String) :
    countKeyPairs (ps.foldl qsAdd []) k = (if valsOfSegs ps k = [] then 0 else 1) ∧
    jsLookupPairs (ps.foldl qsAdd []) k = collapseVals (valsOfSegs ps k) := by
  induction ps using List.reverseRecOn with
  | nil => simp [countKeyPairs, jsLookupPairs, findPair, valsOfSegs, collapseVals]
  | append_singleton ps p ih =>
    obtain ⟨ihc, ihl⟩ := ih
    rw [List.foldl_append, List.foldl_cons, List.foldl_nil, valsOfSegs_append_single,
      qsAdd_eq]
    by_cases hpk : (p.1 == k) = true
    · have hp1 : p.1 = k := by simpa using hpk
      rw [if_pos hpk, hp1]
      by_cases hv : valsOfSegs ps k = []
      · have hnone : findPair (ps.foldl qsAdd []) k = none := by
          rw [findPair_eq_none_iff, ihc, if_pos hv]
        rw [hnone]
        simp only [Option.isSome_none, Bool.false_eq_true, if_false]
        constructor
        · rw [countKeyPairs_append_single, ihc, if_pos hv]
          simp [hv]
        · rw [jsLookupPairs, findPair_append_left_none _ _ _ hnone, findPair_cons,
            if_pos (by simp)]
          simp [hv, collapseVals]
      · obtain ⟨e, he⟩ : ∃ e, findPair (ps.foldl qsAdd []) k = some e := by
          cases hf : findPair (ps.foldl qsAdd []) k with
          | none =>
            rw [findPair_eq_none_iff, ihc, if_neg hv] at hf
            exact absurd hf (by omega)
          | some e => exact ⟨e, rfl⟩
        rw [he]
        simp only [Option.isSome_some, if_true]
        constructor
        · rw [updateFirstValue_countKey, ihc, if_neg hv]
          simp [hv]
        · rw [jsLookupPairs, updateFirstValue_findPair_self _ _ _ _ he]
          have he2 : e.2 = collapseVals (valsOfSegs ps k) := by
            rw [← ihl, jsLookupPairs, he]
          obtain ⟨v, vs, hvv⟩ := List.exists_cons_of_ne_nil hv
          rw [he2, hvv, collapseVals_push]
    · have hp1 : p.1 ≠ k := by simpa using hpk
      have hnil : (if (p.1 == k) = true then [p.2] else ([] : List String)) = [] := by
        simp [hpk]
      rw [hnil, List.append_nil]
      cases hf : findPair (ps.foldl qsAdd []) p.1 with
      | some e0 =>
        simp only [Option.isSome_some, if_true]
        constructor
        · rw [updateFirstValue_countKey, ihc]
        · rw [jsLookupPairs, updateFirstValue_findPair_ne _ _ _ _ hp1, ← ihl]
          rw [jsLookupPairs]
      | none =>
        simp only [Option.isSome_none, Bool.false_eq_true, if_false]
        constructor
        · rw [countKeyPairs_append_single, ihc]
          simp [hpk]
        · cases hfk : findPair (ps.foldl qsAdd []) k with
          | some e =>
            rw [jsLookupPairs, findPair_append_some _ _ _ _ hfk]
            rw [jsLookupPairs, hfk] at ihl
            exact ihl
          | none =>
            rw [jsLookupPairs, findPair_append_left_none _ _ _ hfk, findPair_cons,
              if_neg hpk]
            rw [jsLookupPairs, hfk] at ihl
            simpa [findPair] using ihl

theorem jsLookupPairs_map_mk (l : List String) (f : String → JVal) (k : String)
    (hk : k ∈ l) : jsLookupPairs (l.map (fun k0 => (k0, f k0))) k = f k := by
  induction l with
  | nil => cases hk
  | cons x xs ih =>
    rw [List.map_cons, jsLookupPairs, findPair_cons]
    by_cases h : x = k
    · subst h
      rw [if_pos (by simp)]
    · rw [if_neg (by simpa using h)]
      have hk' : k ∈ xs := by
        rcases List.mem_cons.mp hk with h' | h'
        · exact absurd h'.symm h
        · exact h'
      exact ih hk'

theorem countKeyPairs_objPairsSorted (m : List (String × JVal)) (k : String) :
    countKeyPairs (objPairsSorted m) k = (m.map (fun e => e.1)).count k := by
  unfold objPairsSorted
  rw [countKeyPairs_eq_count_keys, List.map_map]
  have : ((fun e : String × JVal => e.1) ∘ fun k0 => (k0, jsLookupPairs m k0)) = id := rfl
  rw [this, List.map_id, count_sortStrings]

theorem jsLookupPairs_objPairsSorted (m : List (String × JVal)) (k : String)
    (hk : k ∈ m.map (fun e => e.1)) :
    jsLookupPairs (objPairsSorted m) k = jsLookupPairs m k :=
  jsLookupPairs_map_mk _ _ _ (mem_sortStrings.mpr hk)

/-- C9: when a single query-string source repeats a key
(`2 ≤ (qsVals q k).length`), `normalizeRequestParams` emits exactly one
pair for that key, and its value is the array of all that key's values in
textual order — duplicates accumulate, they are never emitted as separate
pairs and never overwrite each other. -/
theorem C9_duplicate_query_keys (q k : String) (h : 2 ≤ (qsVals q k).length) :
    countKeyPairs (normalizeRequestParams (some (.str q))) k = 1 ∧
    jsLookupPairs (normalizeRequestParams (some (.str q))) k =
      .arr ((qsVals q k).map JVal.str) := by
  obtain ⟨hc, hl⟩ := qsAdd_foldl_spec (parseSegs q) k
  have hne : valsOfSegs (parseSegs q) k ≠ [] := by
    intro h0
    rw [show qsVals q k = valsOfSegs (parseSegs q) k from rfl, h0] at h
    simp at h
  have hc1 : countKeyPairs (qsParse q) k = 1 := by
    show countKeyPairs ((parseSegs q).foldl qsAdd []) k = 1
    rw [hc, if_neg hne]
  obtain ⟨e, he⟩ : ∃ e, findPair (qsParse q) k = some e := by
    cases hf : findPair (qsParse q) k with
    | none =>
      rw [findPair_eq_none_iff, hc1] at hf
      exact absurd hf (by omega)
    | some e => exact ⟨e, rfl⟩
  have hmem : k ∈ (qsParse q).map (fun x => x.1) := by
    have hmem0 : e ∈ qsParse q := List.mem_of_find?_eq_some he
    have hek : e.1 = k := by simpa using List.find?_some he
    rw [← hek]
    exact List.mem_map_of_mem _ hmem0
  constructor
  · show countKeyPairs (objPairsSorted (qsParse q)) k = 1
    rw [countKeyPairs_objPairsSorted, ← countKeyPairs_eq_count_keys]
    exact hc1
  · show jsLookupPairs (objPairsSorted (qsParse q)) k = _
    rw [jsLookupPairs_objPairsSorted _ _ hmem]
    have hl' : jsLookupPairs (qsParse q) k = collapseVals (qsVals q k) := hl
    rw [hl']
    cases hv : qsVals q k with
    | nil =>
      rw [hv] at h
      simp at h
    | cons v1 t1 =>
      cases t1 with
      | nil =>
        rw [hv] at h
        simp at h
      | cons v2 t2 => rfl

/-- Witness for `C9_duplicate_query_keys` on `'a=1&a=2&b=0'`. -/
theorem C9_duplicate_query_keys_witness :
    countKeyPairs (normalizeRequestParams (some (.str "a=1&a=2&b=0"))) "a" = 1 ∧
    jsLookupPairs (normalizeRequestParams (some (.str "a=1&a=2&b=0"))) "a" =
      .arr ((qsVals "a=1&a=2&b=0" "a").map JVal.str) :=
  C9_duplicate_query_keys "a=1&a=2&b=0" "a" (by decide)

/-- C2 (counterexample): `normalizeRequestParams('foo=bar&answer=42')`
does *not* preserve the textual order of the keys — the string is parsed
into a mapping whose keys are then sorted, so the claimed
`[['foo','bar'],['answer','42']]` is wrong (the repository's own test
pins the sorted order). -/
theorem C2_textual_order_cex :
    normalizeRequestParams (some (.str "foo=bar&answer=42")) ≠
      [("foo", .str "bar"), ("answer", .str "42")] := by
  intro h
  have h0 := congrArg (fun l => (l.headD ("", JVal.undefined)).1) h
  exact absurd h0 (by decide)

/-- C2 (amended): for every query-string input, the pair list produced
by `normalizeRequestParams` is sorted by key (`Object.keys(...).sort()`
order), not textual order; in particular `'foo=bar&answer=42'` yields
`[['answer','42'],['foo','bar']]`. -/
theorem C2_sorted_order_amended :
    (∀ q : String, (normalizeRequestParams (some (.str q))).Pairwise
      (fun a b => strLt b.1 a.1 = false)) ∧
    normalizeRequestParams (some (.str "foo=bar&answer=42")) =
      [("answer", .str "42"), ("foo", .str "bar")] := by
  constructor
  · intro q
    show (objPairsSorted (qsParse q)).Pairwise _
    unfold objPairsSorted
    rw [List.pairwise_map]
    exact pairwise_sortStrings _
  · rfl

/-- Witness for `C4_merge_collisions`: a colliding pair combines into a
two-element array, a fresh pair is appended. -/
theorem C4_merge_collisions_witness :
    mergeAdd [("foo", JVal.str "bar")] ("foo", .str "ter") =
      [("foo", .arr [.str "bar", .str "ter"])] ∧
    mergeAdd [] ("say", .str "hi") = [("say", .str "hi")] := by
  constructor
  · have h := C4_merge_collisions.2.1 [] [] "foo" (.str "ter") (.str "bar") (by decide) rfl
    simpa [combineDup] using h
  · exact C4_merge_collisions.1 [] "say" (.str "hi") (Or.inr rfl)

theorem afterGate_cases (st1 : ZSt) (evs : List Ev) (httpO : HttpReq → Except String JVal)
    (parseJson : String → JVal) (now : Int) (moduleName methodName : String)
    (opts : ReqOptions) :
    (st1.config = none ∧
      afterGate st1 evs httpO parseJson now moduleName methodName opts =
        ⟨st1, evs, .error (.configEmpty (configEmptyMsg moduleName methodName))⟩) ∨
    (∃ cfg m u e, st1.config = some cfg ∧
      afterGate st1 evs httpO parseJson now moduleName methodName opts =
        ⟨st1, evs ++ [.http m u], .error (.transport e)⟩) ∨
    (∃ cfg m u r2, st1.config = some cfg ∧
      ((moduleName ++ "/" ++ methodName == "user/login") && (r2.status == 1)) = true ∧
      afterGate st1 evs httpO parseJson now moduleName methodName opts =
        ⟨{ st1 with
            config := some (cfg.renewToken now),
            store := if st1.preserveToken then some (serializeConfig (cfg.renewToken now))
              else st1.store },
          evs ++ [.http m u] ++ (if st1.preserveToken then [Ev.storeSet] else []),
          .ok r2⟩) ∨
    (∃ cfg m u r2, st1.config = some cfg ∧
      ((moduleName ++ "/" ++ methodName == "user/login") && (r2.status == 1)) = false ∧
      afterGate st1 evs httpO parseJson now moduleName methodName opts =
        ⟨st1, evs ++ [.http m u], .ok r2⟩) := by
  simp only [afterGate]
  split
  next hc =>
    exact Or.inl ⟨hc, rfl⟩
  next cfg hc =>
    split
    next e hh =>
      exact Or.inr (Or.inl ⟨cfg, _, _, e, hc, rfl⟩)
    next remote hh =>
      split
      next hcond =>
        exact Or.inr (Or.inr (Or.inl ⟨cfg, _, _, _, hc, hcond, rfl⟩))
      next hcond =>
        refine Or.inr (Or.inr (Or.inr ⟨cfg, _, _, _, hc, ?_, rfl⟩))
        simpa using hcond

theorem afterGate_count_loginCall (st1 : ZSt) (evs : List Ev)
    (httpO : HttpReq → Except String JVal) (parseJson : String → JVal) (now : Int)
    (moduleName methodName : String) (opts : ReqOptions) :
    (afterGate st1 evs httpO parseJson now moduleName methodName opts).events.count
        Ev.loginCall = evs.count Ev.loginCall := by
  rcases afterGate_cases st1 evs httpO parseJson now moduleName methodName opts with
    ⟨_, he⟩ | ⟨c, m, u, e, _, he⟩ | ⟨c, m, u, r2, _, _, he⟩ | ⟨c, m, u, r2, _, _, he⟩ <;>
    rw [he] <;> by_cases hp : st1.preserveToken <;>
    simp [List.count_append, List.count_cons, hp]

theorem afterGate_events_prefix (st1 : ZSt) (evs : List Ev)
    (httpO : HttpReq → Except String JVal) (parseJson : String → JVal) (now : Int)
    (moduleName methodName : String) (opts : ReqOptions) :
    ∃ tail, (afterGate st1 evs httpO parseJson now moduleName methodName opts).events =
      evs ++ tail := by
  rcases afterGate_cases st1 evs httpO parseJson now moduleName methodName opts with
    ⟨_, he⟩ | ⟨c, m, u, e, _, he⟩ | ⟨c, m, u, r2, _, _, he⟩ | ⟨c, m, u, r2, _, _, he⟩ <;>
    rw [he]
  · exact ⟨[], by simp⟩
  · exact ⟨[.http m u], rfl⟩
  · exact ⟨[.http m u] ++ (if st1.preserveToken then [Ev.storeSet] else []), by simp⟩
  · exact ⟨[.http m u], rfl⟩

theorem afterGate_config_none (st1 : ZSt) (evs : List Ev)
    (httpO : HttpReq → Except String JVal) (parseJson : String → JVal) (now : Int)
    (moduleName methodName : String) (opts : ReqOptions) (hc : st1.config = none) :
    afterGate st1 evs httpO parseJson now moduleName methodName opts =
      ⟨st1, evs, .error (.configEmpty (configEmptyMsg moduleName methodName))⟩ := by
  simp only [afterGate, hc]

theorem requestRun_gate_false (st : ZSt)
    (loginO : ZSt → ZSt × List Ev × Except ZErr ZentaoApiResult)
    (httpO : HttpReq → Except String JVal) (parseJson : String → JVal) (now : Int)
    (moduleName methodName : String) (opts : ReqOptions)
    (hg : gateCond st now moduleName methodName = false) :
    requestRun st loginO httpO parseJson now moduleName methodName opts =
      afterGate st [] httpO parseJson now moduleName methodName opts := by
  unfold requestRun
  rw [hg]
  simp

/-- C5: the auth gate of `request(module, method, options)`.  When no
config is loaded or its token is expired and the operation is not
(case-insensitively) `user/login` (`gateCond`), `login()` is invoked
exactly once, as the very first event — never retried or looped; when
the gate condition fails, `login()` is not invoked at all.  If after the
gate (login having returned rather than thrown) no config is present,
the call fails with exactly the configuration error and performs no HTTP
exchange of its own — its trace is just the gate's. -/
theorem C5_auth_gate (st : ZSt)
    (loginO : ZSt → ZSt × List Ev × Except ZErr ZentaoApiResult)
    (httpO : HttpReq → Except String JVal) (parseJson : String → JVal) (now : Int)
    (moduleName methodName : String) (opts : ReqOptions)
    (hLO : ∀ s : ZSt, Ev.loginCall ∉ (loginO s).2.1) :
    (gateCond st now moduleName methodName = true →
      (requestRun st loginO httpO parseJson now moduleName methodName
          opts).events.count Ev.loginCall = 1 ∧
      (requestRun st loginO httpO parseJson now moduleName methodName
          opts).events.head? = some Ev.loginCall) ∧
    (gateCond st now moduleName methodName = false →
      (requestRun st loginO httpO parseJson now moduleName methodName
          opts).events.count Ev.loginCall = 0) ∧
    (∀ st1 : ZSt,
      st1 = (if gateCond st now moduleName methodName then (loginO st).1 else st) →
      (gateCond st now moduleName methodName = true → ∃ r, (loginO st).2.2 = .ok r) →
      st1.config = none →
      (requestRun st loginO httpO parseJson now moduleName methodName opts).res =
        .error (.configEmpty (configEmptyMsg moduleName methodName)) ∧
      (requestRun st loginO httpO parseJson now moduleName methodName opts).events =
        (if gateCond st now moduleName methodName then Ev.loginCall :: (loginO st).2.1
         else [])) := by
  have hcl : (loginO st).2.1.count Ev.loginCall = 0 :=
    List.count_eq_zero_of_not_mem (hLO st)
  by_cases hg : gateCond st now moduleName methodName = true
  · have hrun : requestRun st loginO httpO parseJson now moduleName methodName opts =
        (match loginO st with
         | (st1, levs, .error e) => ⟨st1, Ev.loginCall :: levs, .error e⟩
         | (st1, levs, .ok _) =>
           afterGate st1 (Ev.loginCall :: levs) httpO parseJson now moduleName methodName
             opts) := by
      unfold requestRun
      rw [hg]
      simp
    rcases hlo : loginO st with ⟨st1', levs, lres⟩
    rw [hlo] at hrun hcl
    simp only at hcl
    refine ⟨fun _ => ?_, fun hgf => absurd hg (by simp [hgf]), ?_⟩
    · cases lres with
      | error e =>
        rw [hrun]
        exact ⟨by simp [List.count_cons, hcl], rfl⟩
      | ok r0 =>
        rw [hrun]
        constructor
        · rw [afterGate_count_loginCall]
          simp [List.count_cons, hcl]
        · obtain ⟨tail, ht⟩ := afterGate_events_prefix st1' (Ev.loginCall :: levs) httpO
            parseJson now moduleName methodName opts
          rw [ht, List.cons_append]
          rfl
    · intro st1 hst1 hok hnone
      rw [if_pos hg] at hst1
      simp only at hst1
      subst hst1
      cases lres with
      | error e =>
        obtain ⟨r, hr⟩ := hok hg
        exact absurd hr (by simp)
      | ok r0 =>
        dsimp only at hrun
        rw [hrun, afterGate_config_none _ _ _ _ _ _ _ _ hnone]
        rw [if_pos hg]
        exact ⟨rfl, rfl⟩
  · have hgf : gateCond st now moduleName methodName = false := by
      simpa using hg
    rw [requestRun_gate_false _ _ _ _ _ _ _ _ hgf]
    refine ⟨fun hgt => absurd hgt (by simp [hgf]), fun _ => ?_, ?_⟩
    · rw [afterGate_count_loginCall]
      rfl
    · intro st1 hst1 _ hnone
      rw [if_neg (by simp [hgf])] at hst1
      subst hst1
      rw [afterGate_config_none _ _ _ _ _ _ _ _ hnone]
      rw [if_neg (by simp [hgf])]
      exact ⟨rfl, rfl⟩

/-- Witness for `C5_auth_gate`: from a fresh state (no config) a
`product/all` call invokes the login oracle exactly once, and — the
oracle here not establishing a config — fails with the configuration
error. -/
theorem C5_auth_gate_witness :
    (requestRun demoSt
        (fun s => (s, ([] : List Ev),
          Except.ok { status := 0, msg := JVal.undefined, result := JVal.undefined }))
        (fun _ => .ok demoLoginOkJ) (fun _ => .null) 0 "product" "all"
        {}).events.count Ev.loginCall = 1 ∧
    (requestRun demoSt
        (fun s => (s, ([] : List Ev),
          Except.ok { status := 0, msg := JVal.undefined, result := JVal.undefined }))
        (fun _ => .ok demoLoginOkJ) (fun _ => .null) 0 "product" "all" {}).res =
      .error (.configEmpty (configEmptyMsg "product" "all")) := by
  have h := C5_auth_gate demoSt
    (fun s => (s, ([] : List Ev),
      Except.ok { status := 0, msg := JVal.undefined, result := JVal.undefined }))
    (fun _ => .ok demoLoginOkJ) (fun _ => .null) 0 "product" "all" {}
    (fun s => by simp)
  refine ⟨(h.1 (by decide)).1, (h.2.2 demoSt ?_ ?_ rfl).1⟩
  · rw [if_pos (by decide)]
  · intro _
    exact ⟨_, rfl⟩

/-- C8 (amended): the post-exchange token update of `request()`.  When
the call is exactly `user/login` and the final normalized result has
status 1, the config's token is renewed (`renewToken` at the current
time) and, with token persistence enabled, the serialized config is
written to the store.  For any other module/method pair or an
unsuccessful result the renew/persist step is skipped, so the call
leaves the instance state unchanged *provided the auth gate did not
itself invoke `login()`* (a gate-triggered `login()` renews the token as
its own `user/login` call succeeds). -/
theorem C8_renew_amended (st : ZSt)
    (loginO : ZSt → ZSt × List Ev × Except ZErr ZentaoApiResult)
    (httpO : HttpReq → Except String JVal) (parseJson : String → JVal) (now : Int)
    (moduleName methodName : String) (opts : ReqOptions) :
    (∀ r, moduleName ++ "/" ++ methodName = "user/login" →
      (requestRun st loginO httpO parseJson now moduleName methodName opts).res = .ok r →
      r.status = 1 →
      ∃ cfg, st.config = some cfg ∧
        (requestRun st loginO httpO parseJson now moduleName methodName opts).st.config =
          some (cfg.renewToken now) ∧
        (requestRun st loginO httpO parseJson now moduleName methodName opts).st.store =
          (if st.preserveToken then some (serializeConfig (cfg.renewToken now))
           else st.store)) ∧
    (gateCond st now moduleName methodName = false →
      (moduleName ++ "/" ++ methodName = "user/login" →
        ∀ r, (requestRun st loginO httpO parseJson now moduleName methodName opts).res =
          .ok r → r.status ≠ 1) →
      (requestRun st loginO httpO parseJson now moduleName methodName opts).st = st) := by
  constructor
  · intro r hmm hres hstat
    have hlow : gateCond st now moduleName methodName = false := by
      unfold gateCond
      have hl : jsToLower (moduleName ++ "/" ++ methodName) = "user/login" := by
        rw [hmm]
        decide
      rw [hl]
      simp
    rw [requestRun_gate_false _ _ _ _ _ _ _ _ hlow] at hres ⊢
    rcases afterGate_cases st [] httpO parseJson now moduleName methodName opts with
      ⟨hc, he⟩ | ⟨c, m, u, e, hc, he⟩ | ⟨c, m, u, r2, hc, hcond, he⟩ |
      ⟨c, m, u, r2, hc, hcond, he⟩
    · rw [he] at hres
      exact absurd hres (by simp)
    · rw [he] at hres
      exact absurd hres (by simp)
    · rw [he]
      exact ⟨c, hc, rfl, rfl⟩
    · rw [he] at hres
      have hr2 : r2 = r := by simpa using hres
      subst hr2
      rw [hmm] at hcond
      simp [hstat] at hcond
  · intro hg hns
    rw [requestRun_gate_false _ _ _ _ _ _ _ _ hg] at hns ⊢
    rcases afterGate_cases st [] httpO parseJson now moduleName methodName opts with
      ⟨hc, he⟩ | ⟨c, m, u, e, hc, he⟩ | ⟨c, m, u, r2, hc, hcond, he⟩ |
      ⟨c, m, u, r2, hc, hcond, he⟩
    · rw [he]
    · rw [he]
    · rw [he] at hns
      obtain ⟨h1, h2⟩ := (Bool.and_eq_true _ _).mp hcond
      have hmm' : moduleName ++ "/" ++ methodName = "user/login" := by simpa using h1
      have hst2 : r2.status = 1 := by simpa using h2
      exact absurd hst2 (hns hmm' r2 rfl)
    · rw [he]

/-- Witness for `C8_renew_amended`: a successful concrete `user/login`
exchange renews the token on the loaded config (persistence is off here,
so the store is untouched). -/
theorem C8_renew_amended_witness :
    ∃ cfg, ({ demoSt with config := some demoCfg } : ZSt).config = some cfg ∧
      (requestRun { demoSt with config := some demoCfg }
          (fun s => (s, ([] : List Ev),
            Except.ok { status := 0, msg := JVal.undefined, result := JVal.undefined }))
          (fun _ => .ok demoLoginOkJ) (fun _ => .null) 7 "user" "login"
          {}).st.config = some (cfg.renewToken 7) ∧
      (requestRun { demoSt with config := some demoCfg }
          (fun s => (s, ([] : List Ev),
            Except.ok { status := 0, msg := JVal.undefined, result := JVal.undefined }))
          (fun _ => .ok demoLoginOkJ) (fun _ => .null) 7 "user" "login"
          {}).st.store =
        (if ({ demoSt with config := some demoCfg } : ZSt).preserveToken then
          some (serializeConfig (cfg.renewToken 7))
         else ({ demoSt with config := some demoCfg } : ZSt).store) :=
  (C8_renew_amended { demoSt with config := some demoCfg }
      (fun s => (s, ([] : List Ev),
        Except.ok { status := 0, msg := JVal.undefined, result := JVal.undefined }))
      (fun _ => .ok demoLoginOkJ) (fun _ => .null) 7 "user" "login" {}).1
    { status := 1, msg := .str "success", result := .undefined } rfl rfl rfl

/-- C8 (counterexample to the claim as stated): with the real `login()`
wired in, a call to `request('product','all')` from a fresh state — a
module/method pair other than `user/login` — still changes the config's
token state: the auth gate's `login()` renews the token.  The claim's
"for any other module/method pair …, the config's token state is left
unchanged by the call" is therefore false. -/
theorem C8_token_changed_cex :
    zentaoToken ((zentaoRequest demoSt demoHttpO (fun _ => .null) 1700000000000
      "product" "all" {}).st) = "zentaosid=sid123" ∧
    zentaoToken demoSt = "" ∧
    ("zentaosid=sid123" : String) ≠ "" := by
  refine ⟨by decide, rfl, by decide⟩
